import Mathlib

/-!
Verification of the fileshift document-conversion pipeline
(src/netlify/functions/convert.js and convert.mts).

JavaScript strings are modelled as `List Char` (`Str`), Node `Buffer`s as
`List Nat` (byte values).  External libraries (msgreader, mailparser,
mammoth, CFB, pdfkit, docx, JSON) are modelled as oracle parameters; all
code of the repository itself is translated faithfully.
-/

namespace FileShift

abbrev Str := List Char

/-- JS `s || d` for strings: the default wins only when `s` is empty. -/
def orDefault (s d : Str) : Str := if s = [] then d else s

/-- JS `Array.prototype.findIndex`: index of the first match, `none`
modelling the `-1` result. -/
def findIndex (p : α → Bool) : List α → Option Nat
  | [] => none
  | a :: l => if p a then some 0 else (findIndex p l).map (· + 1)

/-- JS `String.prototype.includes`: substring test. -/
def hasSub (pat : Str) : Str → Bool
  | [] => pat.isEmpty
  | c :: cs => pat.isPrefixOf (c :: cs) || hasSub pat cs

/-- JS `String.prototype.split` with a one-character separator. -/
def splitOnChar (sep : Char) : Str → List Str
  | [] => [[]]
  | c :: cs =>
    if c = sep then [] :: splitOnChar sep cs
    else
      match splitOnChar sep cs with
      | h :: t => (c :: h) :: t
      | [] => [[c]]

/-- JS `Array.prototype.join` with a one-character separator. -/
def joinSep (sep : Char) : List Str → Str
  | [] => []
  | [x] => x
  | x :: y :: t => x ++ sep :: joinSep sep (y :: t)

/-- JS `Array.prototype.join` with a string separator. -/
def joinStr (sep : Str) : List Str → Str
  | [] => []
  | [x] => x
  | x :: y :: t => x ++ sep ++ joinStr sep (y :: t)

/-- Code points of the JS `\s` / `trim` whitespace class. -/
def jsWsCodes : List Nat :=
  [9, 10, 11, 12, 13, 32, 0xA0, 0x1680,
   0x2000, 0x2001, 0x2002, 0x2003, 0x2004, 0x2005, 0x2006, 0x2007,
   0x2008, 0x2009, 0x200A, 0x2028, 0x2029, 0x202F, 0x205F, 0x3000, 0xFEFF]

def jsWs (c : Char) : Bool := jsWsCodes.contains c.toNat

/-- JS `String.prototype.trim`. -/
def jsTrim (s : Str) : Str :=
  ((s.dropWhile jsWs).reverse.dropWhile jsWs).reverse

/-- JS `s.replace(/c/g, rep)` for a single character `c`. -/
def replaceChar (c : Char) (rep : Str) (s : Str) : Str :=
  (s.map fun x => if x = c then rep else [x]).flatten

/-- `esc` from both convert.js and convert.mts: sequential global replaces
of `&`, `<`, `>`, `"` by their HTML entities. -/
def esc (s : Str) : Str :=
  replaceChar '"' "&quot;".data
    (replaceChar '>' "&gt;".data
      (replaceChar '<' "&lt;".data
        (replaceChar '&' "&amp;".data s)))

/-- UTF-8 encoding of one scalar value (the bytes Node's
`Buffer.from(string, "utf-8")` produces for it). -/
def utf8EncodeChar (c : Char) : List Nat :=
  let n := c.toNat
  if n < 0x80 then [n]
  else if n < 0x800 then [0xC0 + n / 64, 0x80 + n % 64]
  else if n < 0x10000 then
    [0xE0 + n / 4096, 0x80 + (n / 64) % 64, 0x80 + n % 64]
  else
    [0xF0 + n / 262144, 0x80 + (n / 4096) % 64, 0x80 + (n / 64) % 64, 0x80 + n % 64]

/-- Node `Buffer.from(string, "utf-8")`. -/
def utf8Encode (s : Str) : List Nat := (s.map utf8EncodeChar).flatten

/-- The replacement character emitted for invalid byte sequences. -/
def repl : Char := '�'

def isCont (b : Nat) : Bool := 0x80 ≤ b && b < 0xC0

/-- One UTF-8 decoding step: given a lead byte and the remaining input,
the characters emitted and the input left over.  Well-formed sequences
decode exactly; invalid bytes become U+FFFD (the resynchronisation on
invalid input is a simplification, exact on all well-formed input). -/
def utf8Step (b0 : Nat) (r : List Nat) : Str × List Nat :=
  if b0 < 0x80 then ([Char.ofNat b0], r)
  else if 0xC2 ≤ b0 && b0 ≤ 0xDF then
    match r with
    | [] => ([repl], [])
    | b1 :: r1 =>
      if isCont b1 then ([Char.ofNat ((b0 - 0xC0) * 64 + (b1 - 0x80))], r1)
      else ([repl], b1 :: r1)
  else if 0xE0 ≤ b0 && b0 ≤ 0xEF then
    match r with
    | b1 :: b2 :: r2 =>
      let n := (b0 - 0xE0) * 4096 + (b1 - 0x80) * 64 + (b2 - 0x80)
      if isCont b1 && isCont b2 && decide (0x800 ≤ n) && decide (n < 0xD800 || 0xDFFF < n) then
        ([Char.ofNat n], r2)
      else ([repl], b1 :: b2 :: r2)
    | r' => ([repl], r')
  else if 0xF0 ≤ b0 && b0 ≤ 0xF4 then
    match r with
    | b1 :: b2 :: b3 :: r3 =>
      let n := (b0 - 0xF0) * 262144 + (b1 - 0x80) * 4096 + (b2 - 0x80) * 64 + (b3 - 0x80)
      if isCont b1 && isCont b2 && isCont b3 && decide (0x10000 ≤ n) && decide (n ≤ 0x10FFFF) then
        ([Char.ofNat n], r3)
      else ([repl], b1 :: b2 :: b3 :: r3)
    | r' => ([repl], r')
  else ([repl], r)

/-- Fuel-indexed UTF-8 decoding loop; every step consumes the lead byte,
so fuel equal to the input length always suffices. -/
def utf8DecodeF : Nat → List Nat → Str
  | _, [] => []
  | 0, _ :: _ => []
  | fuel + 1, b0 :: r =>
    let s := utf8Step b0 r
    s.1 ++ utf8DecodeF fuel s.2

/-- Node `buffer.toString("utf-8")`. -/
def utf8Decode (l : List Nat) : Str := utf8DecodeF l.length l

/-- One UTF-16LE decoding step after reading the code unit of `b0, b1`:
surrogate pairs combined; lone surrogates become U+FFFD (Lean characters
cannot carry lone surrogates). -/
def utf16Step (b0 b1 : Nat) (rest : List Nat) : Str × List Nat :=
  let u := b0 + 256 * b1
  if 0xD800 ≤ u && u ≤ 0xDBFF then
    match rest with
    | b2 :: b3 :: rest2 =>
      let v := b2 + 256 * b3
      if 0xDC00 ≤ v && v ≤ 0xDFFF then
        ([Char.ofNat (0x10000 + (u - 0xD800) * 1024 + (v - 0xDC00))], rest2)
      else ([repl], b2 :: b3 :: rest2)
    | r' => ([repl], r')
  else if 0xDC00 ≤ u && u ≤ 0xDFFF then ([repl], rest)
  else ([Char.ofNat u], rest)

/-- Fuel-indexed UTF-16LE decoding loop; a trailing odd byte is
dropped.  Each step consumes two bytes, so fuel equal to the input
length suffices. -/
def utf16leDecodeF : Nat → List Nat → Str
  | _, [] => []
  | _, [_] => []
  | 0, _ :: _ :: _ => []
  | fuel + 1, b0 :: b1 :: rest =>
    let s := utf16Step b0 b1 rest
    s.1 ++ utf16leDecodeF fuel s.2

/-- Node `buffer.toString("utf16le")`. -/
def utf16leDecode (l : List Nat) : Str := utf16leDecodeF l.length l

/-- Fuel-indexed loop of `chunkReplace`; each step consumes at least one
character, so fuel equal to the input length suffices. -/
def chunkReplaceF (p : Char → Bool) (f : Str → Str) : Nat → Str → Str
  | _, [] => []
  | 0, _ :: _ => []
  | fuel + 1, c :: cs =>
    if p c then f (c :: cs.takeWhile p) ++ chunkReplaceF p f fuel (cs.dropWhile p)
    else c :: chunkReplaceF p f fuel cs

/-- `s.replace(/X+/g, f)` for a character class `p`: each maximal run of
`p`-characters is rewritten by `f`, all other characters pass through. -/
def chunkReplace (p : Char → Bool) (f : Str → Str) (s : Str) : Str :=
  chunkReplaceF p f s.length s

/-- Position after the first `>` of a string, if any. -/
def afterGt : Str → Option Str
  | [] => none
  | c :: cs => if c = '>' then some cs else afterGt cs

/-- Remainder after a `<[^>]+>` match starting right after a `<`:
at least one non-`>` character, then everything up to and including
the first `>`. -/
def dropTag : Str → Option Str
  | [] => none
  | c :: cs => if c = '>' then none else afterGt cs

/-- Fuel-indexed loop of `stripTags`; each step consumes at least one
character, so fuel equal to the input length suffices. -/
def stripTagsF : Nat → Str → Str
  | _, [] => []
  | 0, _ :: _ => []
  | fuel + 1, c :: cs =>
    if c = '<' then
      match dropTag cs with
      | some rest => ' ' :: stripTagsF fuel rest
      | none => '<' :: stripTagsF fuel cs
    else c :: stripTagsF fuel cs

/-- `s.replace(/<[^>]+>/g, " ")` from the html/htm extraction branch. -/
def stripTags (s : Str) : Str := stripTagsF s.length s

/-- `s.replace(/\s+/g, " ")`. -/
def collapseWs : Str → Str := chunkReplace jsWs (fun _ => [' '])

/-- `s.replace(/[ \t]+/g, " ")` (step 5 of `scrub`). -/
def collapseSpTab : Str → Str :=
  chunkReplace (fun c => c = ' ' || c = '\t') (fun _ => [' '])

/-- `s.replace(/\n{3,}/g, "\n\n")` (step 6 of `scrub`). -/
def collapseNl : Str → Str :=
  chunkReplace (fun c => c = '\n') (fun run => if 3 ≤ run.length then ['\n', '\n'] else run)

/-- The mojibake character class of `scrub` in convert.mts. -/
def mojiChars : Str :=
  ['Ð', '™', 'Ö', 'ö', 'â', 'Ô', '÷', '†', 'æ', '¶', 'ç', 'Æ', 'Â',
   '–', '—', '“', '”', '„', '‰', '©', '®']

def isMoji (c : Char) : Bool := mojiChars.contains c

/-- `s.replace(/[…]{3,}/g, "")`: runs of three or more mojibake
characters are deleted, shorter runs kept (step 4 of `scrub`). -/
def dropMojiRuns : Str → Str :=
  chunkReplace isMoji (fun run => if 3 ≤ run.length then [] else run)

/-- Control characters removed by step 1 of `scrub`:
`[\x00-\x08\x0B\x0C\x0E-\x1F\x7F]`. -/
def isCtl (c : Char) : Bool :=
  (c.toNat ≤ 0x08) || c.toNat = 0x0B || c.toNat = 0x0C ||
  (0x0E ≤ c.toNat && c.toNat ≤ 0x1F) || c.toNat = 0x7F

/-- Characters removed by steps 2 and 3 of `scrub`:
`[\u0080-\u009F]` and `[�￾￿]`. -/
def isJunk (c : Char) : Bool :=
  (0x80 ≤ c.toNat && c.toNat ≤ 0x9F) ||
  c.toNat = 0xFFFD || c.toNat = 0xFFFE || c.toNat = 0xFFFF

/-- `scrub` from convert.mts (lines 128-138): strip control characters,
C1 controls, replacement characters, mojibake runs, collapse blanks and
newline runs, then trim.  The `if (!s) return ""` guard is the identity
on the empty string, which the pipeline below also maps to itself. -/
def scrub (s : Str) : Str :=
  jsTrim (collapseNl (collapseSpTab (dropMojiRuns
    ((s.filter (fun c => !isCtl c)).filter (fun c => !isJunk c)))))

/-- `clean` from convert.mts: drop NUL characters and trim (non-string
inputs, modelled as `[]`, map to `[]`). -/
def clean (s : Str) : Str := jsTrim (s.filter (fun c => c ≠ '\x00'))

/-- An attachment entry of the intermediate document's metadata. -/
structure Attachment where
  name : Str
  size : Nat
  deriving DecidableEq, Repr

/-- The email metadata record attached to the intermediate document when
the source is an email format (`meta.type == "email"`). -/
structure EmailMeta where
  subject : Str
  fromAddr : Str
  toAddr : Str
  cc : Str
  date : Str
  attachments : List Attachment
  deriving DecidableEq, Repr

/-- Argument record of `buildTextEmail` / `buildHtmlEmail`: the metadata
fields plus the body.  A field the caller did not pass is `[]`. -/
structure EmailArgs where
  subject : Str
  fromAddr : Str
  toAddr : Str
  cc : Str
  date : Str
  body : Str
  attachments : List Attachment
  deriving DecidableEq, Repr

/-- The intermediate document `{ text, html, meta }`: the sole data
contract between extraction and rendering.  `meta = none` models the
empty `meta: {}`; `meta = some m` models `type: "email"`. -/
structure Content where
  text : Str
  html : Str
  meta : Option EmailMeta
  deriving DecidableEq, Repr

/-- The value a renderer returns: output bytes, MIME type, filename. -/
structure RenderOut where
  bytes : List Nat
  mime : Str
  name : Str
  deriving DecidableEq, Repr

/-- A single-quote character, for HTML attribute strings. -/
def apo : Str := ['\'']

/-- One recipient entry of a parsed msg file (msgreader output). -/
structure MsgRecip where
  name : Str
  email : Str
  deriving DecidableEq, Repr

/-- One attachment entry of a parsed msg file; `contentLen` is the byte
length of `a.content` when present. -/
structure MsgAtt where
  fileName : Str
  name : Str
  contentLen : Option Nat
  deriving DecidableEq, Repr

/-- The record `msgreader.getFileData()` yields.  A field the library
left undefined is modelled as `[]` / `[]`-valued. -/
structure MsgData where
  subject : Str
  senderName : Str
  senderEmail : Str
  recipients : List MsgRecip
  deliveryTime : Str
  submitTime : Str
  body : Str
  bodyHtml : Str
  attachments : List MsgAtt
  deriving DecidableEq, Repr

/-- One attachment of a mailparser result. -/
structure EmlAtt where
  filename : Str
  size : Nat
  deriving DecidableEq, Repr

/-- The fields convert.js/.mts read off a `simpleParser` result;
`dateStr` is the already-localised display string of `parsed.date`
(or `[]` when the message has no date). -/
structure EmlData where
  subject : Str
  fromAddr : Str
  toAddr : Str
  cc : Str
  dateStr : Str
  body : Str
  bodyHtml : Str
  attachments : List EmlAtt
  deriving DecidableEq, Repr

namespace JS

/-- The `lines` array built by `buildTextEmail` in convert.js before the
final `join("\n")` (lines 402-412): three mandatory header lines, the
conditional CC/Date/Attachments lines, a blank line, 50 box-drawing
dashes, a blank line, the body. -/
def buildTextLines (e : EmailArgs) : List Str :=
  ["Subject: ".data ++ e.subject,
   "From: ".data ++ e.fromAddr,
   "To: ".data ++ e.toAddr]
  ++ (if e.cc ≠ [] then ["CC: ".data ++ e.cc] else [])
  ++ (if e.date ≠ [] then ["Date: ".data ++ e.date] else [])
  ++ (if e.attachments ≠ [] then
        ["Attachments: ".data ++ joinStr ", ".data (e.attachments.map (·.name))]
      else [])
  ++ [[], List.replicate 50 '─', [], e.body]

/-- `buildTextEmail` from convert.js. -/
def buildTextEmail (e : EmailArgs) : Str := joinSep '\n' (buildTextLines e)

/-- `buildHtmlEmail` from convert.js (lines 415-428). -/
def buildHtmlEmail (e : EmailArgs) : Str :=
  "<div class=\"email-header\">".data
  ++ "<div class=\"subject\">".data ++ esc e.subject ++ "</div>".data
  ++ "<p><strong>From:</strong> ".data ++ esc e.fromAddr ++ "</p>".data
  ++ "<p><strong>To:</strong> ".data ++ esc e.toAddr ++ "</p>".data
  ++ (if e.cc ≠ [] then "<p><strong>CC:</strong> ".data ++ esc e.cc ++ "</p>".data else [])
  ++ (if e.date ≠ [] then "<p><strong>Date:</strong> ".data ++ esc e.date ++ "</p>".data else [])
  ++ (if e.attachments ≠ [] then
        "<p><strong>Attachments:</strong> ".data
        ++ joinStr ", ".data (e.attachments.map (fun a => "📎 ".data ++ esc a.name))
        ++ "</p>".data
      else [])
  ++ "</div>".data
  ++ "<div class=\"email-body\">".data ++ e.body ++ "</div>".data

/-- A byte in the printable ASCII range `b >= 32 && b < 127`. -/
def printable (b : Nat) : Bool := 32 ≤ b && b < 127

def byteChar (b : Nat) : Char := Char.ofNat b

/-- The loop of the msg salvage fallback (convert.js lines 150-158):
`longest`/`cur` accumulation over the bytes, final comparison included. -/
def scanAux : List Nat → Str → Str → Str
  | [], longest, cur => if cur.length > longest.length then cur else longest
  | b :: rest, longest, cur =>
    if printable b then scanAux rest longest (cur ++ [byteChar b])
    else scanAux rest (if cur.length > longest.length then cur else longest) []

/-- The salvage text computed by the msg fallback before the placeholder
default: the (first) longest printable-ASCII run of the buffer. -/
def longestPrintableRun (bytes : List Nat) : Str := scanAux bytes [] []

def msgPlaceholder : Str := "(Tidak dapat membaca konten MSG)".data

/-- `extractMSG` from convert.js.  The msgreader library is the oracle
`d? : Option MsgData`: `some d` models `getFileData()` returning `d`,
`none` models the library throwing, which takes the salvage path. -/
def extractMSG (d? : Option MsgData) (buf : List Nat) : Content :=
  match d? with
  | some d =>
    let subject := orDefault d.subject "(Tanpa Subjek)".data
    let fromA :=
      if d.senderName ≠ [] then
        d.senderName ++ (if d.senderEmail ≠ [] then " <".data ++ d.senderEmail ++ ">".data else [])
      else orDefault d.senderEmail "(Tidak diketahui)".data
    let recipients := (d.recipients.map (fun r => orDefault r.name r.email)).filter (· ≠ [])
    let toA := orDefault (joinStr ", ".data recipients) "(Tidak diketahui)".data
    let date := orDefault d.deliveryTime d.submitTime
    let body := d.body
    let bodyHtml := d.bodyHtml
    let attachments := d.attachments.map fun a =>
      { name := orDefault a.fileName (orDefault a.name "file".data),
        size := a.contentLen.getD 0 }
    let args : EmailArgs :=
      { subject := subject, fromAddr := fromA, toAddr := toA, cc := [],
        date := date, body := body, attachments := attachments }
    let text := buildTextEmail args
    let html := buildHtmlEmail
      { args with body :=
          if bodyHtml ≠ [] then bodyHtml
          else "<div style=\"white-space:pre-wrap\">".data ++ esc body ++ "</div>".data }
    { text := text, html := html,
      meta := some { subject := subject, fromAddr := fromA, toAddr := toA,
                     cc := [], date := date, attachments := attachments } }
  | none =>
    let text := orDefault (longestPrintableRun buf) msgPlaceholder
    { text := text, html := "<pre>".data ++ esc text ++ "</pre>".data, meta := none }

/-- `extractEML` from convert.js.  Mailparser is the oracle
`p? : Option EmlData`; `none` models a parse failure, which falls back
to the raw bytes as UTF-8 text. -/
def extractEML (p? : Option EmlData) (buf : List Nat) : Content :=
  match p? with
  | some p =>
    let subject := orDefault p.subject "(Tanpa Subjek)".data
    let fromA := orDefault p.fromAddr "(Tidak diketahui)".data
    let toA := orDefault p.toAddr "(Tidak diketahui)".data
    let cc := p.cc
    let date := p.dateStr
    let body := p.body
    let bodyHtml := p.bodyHtml
    let attachments := p.attachments.map fun a =>
      { name := orDefault a.filename "file".data, size := a.size }
    let args : EmailArgs :=
      { subject := subject, fromAddr := fromA, toAddr := toA, cc := cc,
        date := date, body := body, attachments := attachments }
    let text := buildTextEmail args
    let html := buildHtmlEmail
      { args with body :=
          if bodyHtml ≠ [] then bodyHtml
          else "<div style=\"white-space:pre-wrap\">".data ++ esc body ++ "</div>".data }
    { text := text, html := html,
      meta := some { subject := subject, fromAddr := fromA, toAddr := toA,
                     cc := cc, date := date, attachments := attachments } }
  | none =>
    let raw := utf8Decode buf
    { text := raw, html := "<pre>".data ++ esc raw ++ "</pre>".data, meta := none }

/-- `extractDOCX` from convert.js (lines 193-197): two mammoth calls with
no try/catch — a library failure propagates to the caller.  The oracle
`r` is the joint outcome of `extractRawText`/`convertToHtml`. -/
def extractDOCX (r : Except Str (Str × Str)) : Except Str Content :=
  match r with
  | Except.ok (t, h) => Except.ok { text := t, html := h, meta := none }
  | Except.error e => Except.error e

def csvHeaderStyle : Str := "background:#f0f0f0;font-weight:bold;".data

/-- One table cell of the CSV extractor: `<th>` with header styling on
row 0, `<td>` otherwise. -/
def csvCellHtml (i : Nat) (cell : Str) : Str :=
  let tag := if i = 0 then "th".data else "td".data
  "<".data ++ tag ++ " style=\"".data ++ (if i = 0 then csvHeaderStyle else [])
  ++ "\">".data ++ esc (jsTrim cell) ++ "</".data ++ tag ++ ">".data

/-- The `rows.forEach((row, i) => ...)` accumulation of `extractCSV`. -/
def csvRowsHtml : Nat → List (List Str) → Str
  | _, [] => []
  | i, row :: rest =>
    "<tr>".data ++ (row.map (csvCellHtml i)).flatten ++ "</tr>".data
    ++ csvRowsHtml (i + 1) rest

def csvTableOpen : Str :=
  ("<table border=\"1\" cellpadding=\"6\" cellspacing=\"0\" "
   ++ "style=\"border-collapse:collapse;font-family:sans-serif;\">").data

/-- `extractCSV` from convert.js (lines 200-213): split the trimmed input
on newlines, each row on commas, and emit a table whose row 0 is `<th>`
cells. -/
def extractCSV (str : Str) : Content :=
  let rows := (splitOnChar '\n' (jsTrim str)).map (splitOnChar ',')
  { text := str,
    html := csvTableOpen ++ csvRowsHtml 0 rows ++ "</table>".data,
    meta := none }

/-- `extractJSON` from convert.js.  `JSON.stringify(JSON.parse(str), null, 2)`
is the oracle `pretty?`; `none` models a parse failure. -/
def extractJSON (pretty? : Option Str) (str : Str) : Content :=
  match pretty? with
  | some p => { text := p, html := "<pre>".data ++ esc p ++ "</pre>".data, meta := none }
  | none => { text := str, html := "<pre>".data ++ esc str ++ "</pre>".data, meta := none }

/-- `extract` from convert.js (lines 99-118): dispatch on the lower-cased
extension.  The oracles model msgreader, mailparser, mammoth and
`JSON.parse`+`stringify` respectively. -/
def extract (msgO : List Nat → Option MsgData) (emlO : List Nat → Option EmlData)
    (mamO : List Nat → Except Str (Str × Str)) (jsonO : Str → Option Str)
    (buf : List Nat) (ext : Str) : Except Str Content :=
  if ext = "msg".data then Except.ok (extractMSG (msgO buf) buf)
  else if ext = "eml".data then Except.ok (extractEML (emlO buf) buf)
  else if ext = "docx".data then extractDOCX (mamO buf)
  else if ext = "html".data ∨ ext = "htm".data then
    let s := utf8Decode buf
    Except.ok { text := jsTrim (collapseWs (stripTags s)), html := s, meta := none }
  else if ext = "csv".data then Except.ok (extractCSV (utf8Decode buf))
  else if ext = "json".data then Except.ok (extractJSON (jsonO (utf8Decode buf)) (utf8Decode buf))
  else
    let s := utf8Decode buf
    Except.ok { text := s, html := "<pre>".data ++ esc s ++ "</pre>".data, meta := none }

/-- `generateTXT` from convert.js (lines 367-370): re-encode `text` as
UTF-8 bytes, `text/plain` MIME, `.txt` filename. -/
def generateTXT (content : Content) (baseName : Str) : RenderOut :=
  { bytes := utf8Encode content.text,
    mime := "text/plain; charset=utf-8".data,
    name := baseName ++ ".txt".data }

/-- The document shell of `generateHTML` from convert.js. -/
def htmlShell (baseName : Str) (body : Str) : Str :=
  "<!DOCTYPE html>\n<html lang=\"id\">\n<head><meta charset=\"utf-8\"><title>".data
  ++ esc baseName
  ++ "</title>\n<style>\n  body \x7b font-family: -apple-system, BlinkMacSystemFont, ".data
  ++ apo ++ "Segoe UI".data ++ apo
  ++ (", sans-serif; max-width: 800px; margin: 40px auto; padding: 20px; color: #222; line-height: 1.6; \x7d\n"
      ++ "  .email-header \x7b background: #f5f6fa; padding: 20px; border-radius: 8px; margin-bottom: 24px; \x7d\n"
      ++ "  .email-header p \x7b margin: 4px 0; font-size: 14px; color: #555; \x7d\n"
      ++ "  .email-header .subject \x7b font-size: 20px; font-weight: 600; color: #1a1a2e; margin-bottom: 8px; \x7d\n"
      ++ "  pre \x7b white-space: pre-wrap; word-wrap: break-word; \x7d\n"
      ++ "  table \x7b border-collapse: collapse; width: 100%; \x7d\n"
      ++ "  th, td \x7b border: 1px solid #ddd; padding: 8px 12px; text-align: left; \x7d\n"
      ++ "  th \x7b background: #f0f0f0; \x7d\n</style>\n</head>\n<body>").data
  ++ body ++ "</body>\n</html>".data

/-- `generateHTML` from convert.js (lines 373-393). -/
def generateHTML (content : Content) (baseName : Str) : RenderOut :=
  { bytes := utf8Encode (htmlShell baseName content.html),
    mime := "text/html; charset=utf-8".data,
    name := baseName ++ ".html".data }

/-- `convert` from convert.js (lines 228-236): dispatch on the requested
format string; any other format throws
`Format "<format>" tidak didukung`.  pdfkit and the docx library are the
oracles `pdfO`/`docxO`. -/
def convert (pdfO docxO : Content → Str → Except Str RenderOut)
    (content : Content) (format : Str) (baseName : Str) : Except Str RenderOut :=
  if format = "pdf".data then pdfO content baseName
  else if format = "docx".data then docxO content baseName
  else if format = "txt".data then Except.ok (generateTXT content baseName)
  else if format = "html".data then Except.ok (generateHTML content baseName)
  else Except.error ("Format \"".data ++ format ++ "\" tidak didukung".data)

/-- The conversion step of the handler (convert.js lines 39-58): a
successful conversion is a 200 response carrying the output bytes; any
error thrown by `convert` is caught and answered with status 500 and no
output bytes. -/
def handleConvert (pdfO docxO : Content → Str → Except Str RenderOut)
    (content : Content) (format : Str) (baseName : Str) : Nat × Option (List Nat) :=
  match convert pdfO docxO content format baseName with
  | Except.ok r => (200, some r.bytes)
  | Except.error _ => (500, none)

/-- `bodyLines`/`bodyStart`/`bodyText` from `generateDOCX` in convert.js
(lines 330-332): everything after the first line starting with the
divider glyph, trimmed; the whole text when no such line exists. -/
def docxBodyText (text : Str) : Str :=
  let bodyLines := splitOnChar '\n' text
  match findIndex (fun l => "─".data.isPrefixOf l) bodyLines with
  | some i => jsTrim (joinSep '\n' (bodyLines.drop (i + 1)))
  | none => text

end JS

namespace MTS

/-- One entry of `cfb.FileIndex` (the CFB library's directory listing):
entry name, entry type, raw content bytes. -/
structure CFBEntry where
  name : Str
  etype : Nat
  content : List Nat
  deriving DecidableEq, Repr

/-- The mutable field set of `extractMSG` in convert.mts (line 62-63). -/
structure MsgFields where
  subject : Str
  fromAddr : Str
  senderEmail : Str
  toAddr : Str
  cc : Str
  date : Str
  body : Str
  bodyHtml : Str
  attachmentNames : List Str
  deriving DecidableEq, Repr

/-- The all-empty initial field set. -/
def emptyFields : MsgFields :=
  { subject := [], fromAddr := [], senderEmail := [], toAddr := [], cc := [],
    date := [], body := [], bodyHtml := [], attachmentNames := [] }

/-- Method 1 of `extractMSG` (convert.mts lines 66-77): the msgreader
pass.  `none` models the library throwing, leaving every field empty. -/
def method1 : Option MsgData → MsgFields
  | none => emptyFields
  | some d =>
    { subject := clean d.subject,
      fromAddr := clean d.senderName,
      senderEmail := clean d.senderEmail,
      toAddr := joinStr ", ".data
        ((d.recipients.map (fun r => clean (orDefault r.name r.email))).filter (· ≠ [])),
      cc := [],
      date := clean (orDefault d.deliveryTime d.submitTime),
      body := clean d.body,
      bodyHtml := d.bodyHtml,
      attachmentNames :=
        (d.attachments.map (fun a => clean (orDefault a.fileName a.name))).filter (· ≠ []) }

/-- `msgStr` from convert.mts (lines 118-124): decode the entry content
as UTF-16LE when the entry name carries the `001F` type suffix, as UTF-8
otherwise; drop NULs; trim. -/
def msgStr (content : List Nat) (name : Str) : Str :=
  if content = [] then []
  else
    let s := if hasSub "001F".data name then utf16leDecode content else utf8Decode content
    jsTrim (s.filter (· ≠ '\x00'))

/-- The `continue` guard of the CFB loop: a skipped entry has an empty
name, a type other than 2, or no content. -/
def eligible (e : CFBEntry) : Bool :=
  !e.name.isEmpty && e.etype = 2 && !e.content.isEmpty

/-- One iteration of the CFB loop (convert.mts lines 82-98): each
property tag fills its field only when the field is still empty; a
`3707` attachment name is appended when new and non-empty. -/
def step (f : MsgFields) (e : CFBEntry) : MsgFields :=
  if eligible e then
    let f1 := if hasSub "0037".data e.name && f.subject.isEmpty then
        { f with subject := msgStr e.content e.name } else f
    let f2 := if hasSub "0C1A".data e.name && f1.fromAddr.isEmpty then
        { f1 with fromAddr := msgStr e.content e.name } else f1
    let f3 := if (hasSub "0C1F".data e.name || hasSub "0065".data e.name) && f2.senderEmail.isEmpty then
        { f2 with senderEmail := msgStr e.content e.name } else f2
    let f4 := if hasSub "0E04".data e.name && f3.toAddr.isEmpty then
        { f3 with toAddr := msgStr e.content e.name } else f3
    let f5 := if hasSub "0E03".data e.name && f4.cc.isEmpty then
        { f4 with cc := msgStr e.content e.name } else f4
    let f6 := if hasSub "1000".data e.name && f5.body.isEmpty then
        { f5 with body := msgStr e.content e.name } else f5
    let f7 := if hasSub "1013".data e.name && f6.bodyHtml.isEmpty then
        { f6 with bodyHtml := msgStr e.content e.name } else f6
    if hasSub "3707".data e.name then
      let att := msgStr e.content e.name
      if att ≠ [] && !f7.attachmentNames.contains att then
        { f7 with attachmentNames := f7.attachmentNames ++ [att] }
      else f7
    else f7
  else f

/-- Method 2 of `extractMSG`: the CFB property-tag walk as a fold over
the file index. -/
def mergeCFB (f : MsgFields) (entries : List CFBEntry) : MsgFields :=
  entries.foldl step f

/-- The `lines` array of `buildTextEmail` in convert.mts (lines 309-315):
as in convert.js but with a 60-dash divider. -/
def buildTextLines (e : EmailArgs) : List Str :=
  ["Subject: ".data ++ e.subject,
   "From: ".data ++ e.fromAddr,
   "To: ".data ++ e.toAddr]
  ++ (if e.cc ≠ [] then ["CC: ".data ++ e.cc] else [])
  ++ (if e.date ≠ [] then ["Date: ".data ++ e.date] else [])
  ++ (if e.attachments ≠ [] then
        ["Attachments: ".data ++ joinStr ", ".data (e.attachments.map (·.name))]
      else [])
  ++ [[], List.replicate 60 '─', [], e.body]

/-- `buildTextEmail` from convert.mts. -/
def buildTextEmail (e : EmailArgs) : Str := joinSep '\n' (buildTextLines e)

/-- `buildHtmlEmail` from convert.mts (lines 318-327). -/
def buildHtmlEmail (e : EmailArgs) : Str :=
  "<div class=\"email-header\"><div class=\"subject\">".data ++ esc e.subject ++ "</div>".data
  ++ "<p><strong>From:</strong> ".data ++ esc e.fromAddr ++ "</p>".data
  ++ "<p><strong>To:</strong> ".data ++ esc e.toAddr ++ "</p>".data
  ++ (if e.cc ≠ [] then "<p><strong>CC:</strong> ".data ++ esc e.cc ++ "</p>".data else [])
  ++ (if e.date ≠ [] then "<p><strong>Date:</strong> ".data ++ esc e.date ++ "</p>".data else [])
  ++ (if e.attachments ≠ [] then
        "<p><strong>Attachments:</strong> ".data
        ++ joinStr ", ".data (e.attachments.map (fun a => "📎 ".data ++ esc a.name))
        ++ "</p>".data
      else [])
  ++ "</div><div class=\"email-body\">".data ++ e.body ++ "</div>".data

/-- The fallback HTML body div of convert.mts line 113. -/
def defaultBodyDiv (body : Str) : Str :=
  "<div style=".data ++ apo ++ "white-space:pre-wrap;line-height:1.6".data ++ apo
  ++ ">".data ++ esc body ++ "</div>".data

/-- The final clean-up and assembly of `extractMSG` (convert.mts lines
101-115): scrub each field (with defaults for subject/from/to), append
the scrubbed sender email to `from` when missing there, discard an RTF
`bodyHtml`, scrub attachment names, then build text/html/meta. -/
def assemble (f : MsgFields) : Content :=
  let subject := orDefault (scrub f.subject) "(Tanpa Subjek)".data
  let from0 := orDefault (scrub f.fromAddr) "(Tidak diketahui)".data
  let fromA :=
    if f.senderEmail ≠ [] && from0 ≠ [] && !hasSub f.senderEmail from0 then
      from0 ++ " <".data ++ scrub f.senderEmail ++ ">".data
    else from0
  let toA := orDefault (scrub f.toAddr) "(Tidak diketahui)".data
  let cc := scrub f.cc
  let date := scrub f.date
  let body := scrub f.body
  let bodyHtml :=
    if f.bodyHtml ≠ [] && "\x7b\\rtf".data.isPrefixOf f.bodyHtml then [] else f.bodyHtml
  let attachments :=
    (f.attachmentNames.map (fun n => Attachment.mk (scrub n) 0)).filter (fun a => a.name ≠ [])
  let args : EmailArgs :=
    { subject := subject, fromAddr := fromA, toAddr := toA, cc := cc,
      date := date, body := body, attachments := attachments }
  let text := buildTextEmail args
  let html := buildHtmlEmail
    { args with body := if bodyHtml ≠ [] then bodyHtml else defaultBodyDiv body }
  { text := text, html := html,
    meta := some { subject := subject, fromAddr := fromA, toAddr := toA,
                   cc := cc, date := date, attachments := attachments } }

/-- `extractMSG` from convert.mts (lines 61-116): the msgreader pass,
the CFB pass over it, then the clean-up.  `d? = none` / `cfb? = none`
model the respective library throwing. -/
def extractMSG (d? : Option MsgData) (cfb? : Option (List CFBEntry)) : Content :=
  let f0 := method1 d?
  let f1 := match cfb? with
    | some entries => mergeCFB f0 entries
    | none => f0
  assemble f1

/-- `getBody` from convert.mts (lines 303-307): everything after the
first line starting with the divider glyph, trimmed; the whole text when
no such line exists. -/
def getBody (text : Str) : Str :=
  let lines := splitOnChar '\n' text
  match findIndex (fun l => "─".data.isPrefixOf l) lines with
  | some idx => jsTrim (joinSep '\n' (lines.drop (idx + 1)))
  | none => text

end MTS

/-! Auxiliary definitions used only to state and witness the verified
properties (not part of the translated program). -/

/-- Keep the longer of two strings, the second on strict improvement:
the `cur.length > longest.length ? cur : longest` comparison. -/
def best (a b : Str) : Str := if b.length > a.length then b else a

namespace JS

/-- The run decomposition the salvage scan traverses: the buffer cut at
every non-printable byte, including empty pieces and the trailing
partial run. -/
def runsFrom : Str → List Nat → List Str
  | cur, [] => [cur]
  | cur, b :: rest =>
    if printable b then runsFrom (cur ++ [byteChar b]) rest
    else cur :: runsFrom [] rest

/-- Accumulator pass collecting the maximal non-empty printable runs:
`cur` is the run in progress. -/
def printChunksAux : Str → List Nat → List Str
  | cur, [] => if cur = [] then [] else [cur]
  | cur, b :: r =>
    if printable b then printChunksAux (cur ++ [byteChar b]) r
    else if cur = [] then printChunksAux [] r else cur :: printChunksAux [] r

/-- The maximal non-empty printable-ASCII runs of a byte buffer, in
order, decoded to characters. -/
def printChunks (l : List Nat) : List Str := printChunksAux [] l

end JS

/-- Number of occurrences of a pattern in a string (count of positions
where the pattern is a prefix of the suffix starting there). -/
def countSub (pat : Str) : Str → Nat
  | [] => 0
  | c :: rest => (if pat.isPrefixOf (c :: rest) then 1 else 0) + countSub pat rest

/-- Stated from the spec: a `<th>` cell of the CSV table's header row. -/
def thCellSpec (cell : Str) : Str :=
  "<th style=\"".data ++ JS.csvHeaderStyle ++ "\">".data
  ++ esc (jsTrim cell) ++ "</th>".data

/-- Stated from the spec: a `<td>` cell of a CSV data row. -/
def tdCellSpec (cell : Str) : Str :=
  "<td style=\"\">".data ++ esc (jsTrim cell) ++ "</td>".data

/-- Stated from the spec: the table body with the first row rendered as
`<th>` header cells and every remaining row as `<td>` cells. -/
def csvTableSpec : List (List Str) → Str
  | [] => []
  | first :: rest =>
    "<tr>".data ++ (first.map thCellSpec).flatten ++ "</tr>".data
    ++ (rest.map (fun row => "<tr>".data ++ (row.map tdCellSpec).flatten ++ "</tr>".data)).flatten

/-- The header-line block shared by the two `buildTextEmail` variants:
everything before the blank-line/divider/blank-line/body tail. -/
def emailHeaderLines (e : EmailArgs) : List Str :=
  ["Subject: ".data ++ e.subject,
   "From: ".data ++ e.fromAddr,
   "To: ".data ++ e.toAddr]
  ++ (if e.cc ≠ [] then ["CC: ".data ++ e.cc] else [])
  ++ (if e.date ≠ [] then ["Date: ".data ++ e.date] else [])
  ++ (if e.attachments ≠ [] then
        ["Attachments: ".data ++ joinStr ", ".data (e.attachments.map (·.name))]
      else [])

/-- The value the CFB walk contributes to one field when it starts
empty: the decoded string of the first eligible entry matching the
field's tag whose decoded value is non-empty (an empty decode leaves
the field falsy, so later entries may still fill it). -/
def tagHit (sel : MTS.CFBEntry → Bool) : List MTS.CFBEntry → Str
  | [] => []
  | e :: es =>
    if MTS.eligible e && sel e && !(MTS.msgStr e.content e.name).isEmpty
    then MTS.msgStr e.content e.name
    else tagHit sel es

/-- Property-tag selectors of the CFB walk, one per field. -/
def selSubject (e : MTS.CFBEntry) : Bool := hasSub "0037".data e.name

def selFrom (e : MTS.CFBEntry) : Bool := hasSub "0C1A".data e.name

def selSenderEmail (e : MTS.CFBEntry) : Bool :=
  hasSub "0C1F".data e.name || hasSub "0065".data e.name

def selTo (e : MTS.CFBEntry) : Bool := hasSub "0E04".data e.name

def selCc (e : MTS.CFBEntry) : Bool := hasSub "0E03".data e.name

def selBody (e : MTS.CFBEntry) : Bool := hasSub "1000".data e.name

def selBodyHtml (e : MTS.CFBEntry) : Bool := hasSub "1013".data e.name

/-- msgreader model that always throws. -/
def noMsg : List Nat → Option MsgData := fun _ => none

/-- mailparser model that always fails to parse. -/
def noEml : List Nat → Option EmlData := fun _ => none

/-- mammoth model on input that is not a valid word-processing package:
both `extractRawText` and `convertToHtml` reject such a buffer. -/
def mamFail : List Nat → Except Str (Str × Str) :=
  fun _ => Except.error "not a valid docx package".data

/-- `JSON.parse` model that fails (input is not valid JSON). -/
def jsonNone : Str → Option Str := fun _ => none

/-- pdfkit renderer model (its output is irrelevant to the claims). -/
def pdfStub : Content → Str → Except Str RenderOut :=
  fun _ _ => Except.error ([] : Str)

/-- docx-library renderer model (its output is irrelevant to the claims). -/
def docxStub : Content → Str → Except Str RenderOut :=
  fun _ _ => Except.error ([] : Str)

/-- A minimal intermediate document used as a concrete input. -/
def sampleContent : Content := { text := "x".data, html := "x".data, meta := none }

/-- The email metadata of the spec's canonical-layout example:
`{subject: "Hi", from: "a@x.com", to: "b@x.com", body: "Hello"}`. -/
def sampleArgs : EmailArgs :=
  { subject := "Hi".data, fromAddr := "a@x.com".data, toAddr := "b@x.com".data,
    cc := [], date := [], body := "Hello".data, attachments := [] }

/-- A msgreader result whose HTML body carries a control character
(BEL), used to exhibit that `bodyHtml` is not scrubbed. -/
def bellMsgData : MsgData :=
  { subject := "S".data, senderName := "N".data, senderEmail := [],
    recipients := [], deliveryTime := [], submitTime := [],
    body := "b".data, bodyHtml := "<i>\x07hi</i>".data, attachments := [] }

/-! ## Helper lemmas -/

theorem orDefault_ne_nil (s d : Str) (hd : d ≠ []) : orDefault s d ≠ [] := by
  unfold orDefault
  split <;> simp_all

theorem joinSep_cons_ne_nil (sep : Char) (x : Str) (xs : List Str) (hx : x ≠ []) :
    joinSep sep (x :: xs) ≠ [] := by
  cases xs <;> simp [joinSep, hx]

theorem utf8Step_fst_ne_nil (b0 : Nat) (r : List Nat) : (utf8Step b0 r).1 ≠ [] := by
  unfold utf8Step
  repeat' split
  all_goals simp
  all_goals (split <;> simp)

theorem utf8Decode_ne_nil (bs : List Nat) (h : bs ≠ []) : utf8Decode bs ≠ [] := by
  cases bs with
  | nil => exact absurd rfl h
  | cons b r =>
    unfold utf8Decode
    simp only [List.length_cons, utf8DecodeF]
    have := utf8Step_fst_ne_nil b r
    simp [List.append_eq_nil, this]

/-! ## C1: extraction failure policy -/

/-- C1 (amended): for every extension other than `docx`, `extract`
always returns an intermediate document — the msg, eml and json paths
have salvage fallbacks and the html/htm, csv and default paths are
total.  The docx path alone propagates extractor failures. -/
theorem extract_total_except_docx
    (msgO : List Nat → Option MsgData) (emlO : List Nat → Option EmlData)
    (mamO : List Nat → Except Str (Str × Str)) (jsonO : Str → Option Str)
    (buf : List Nat) (ext : Str) (h : ext ≠ "docx".data) :
    ∃ c, JS.extract msgO emlO mamO jsonO buf ext = Except.ok c := by
  unfold JS.extract
  split_ifs
  all_goals exact ⟨_, rfl⟩

/-- Witness for C1's amended theorem at a concrete input. -/
theorem extract_total_except_docx_witness :
    ("md".data ≠ "docx".data)
    ∧ ∃ c, JS.extract noMsg noEml mamFail jsonNone [104] "md".data = Except.ok c :=
  ⟨by decide, extract_total_except_docx noMsg noEml mamFail jsonNone [104] "md".data (by decide)⟩

/-- Counterexample to C1 as stated: on a buffer that is not a valid
word-processing package (mammoth rejects it, modelled by `mamFail`),
`extract` with extension `docx` propagates the error instead of
salvaging. -/
theorem extract_docx_error :
    JS.extract noMsg noEml mamFail jsonNone [0, 1, 2, 3] "docx".data
      = Except.error "not a valid docx package".data := rfl

/-! ## C2: non-empty plainText invariant -/

/-- C2 (amended): for a non-empty buffer and any extension outside
`html`/`htm` (where tag stripping can empty the text) and `docx`/`json`
(where the text comes from an external library), the extracted
`text` is non-empty. -/
theorem extract_text_ne_nil
    (msgO : List Nat → Option MsgData) (emlO : List Nat → Option EmlData)
    (mamO : List Nat → Except Str (Str × Str)) (jsonO : Str → Option Str)
    (buf : List Nat) (ext : Str) (hbuf : buf ≠ [])
    (hext : ext ∉ ["html".data, "htm".data, "docx".data, "json".data]) :
    ∀ c, JS.extract msgO emlO mamO jsonO buf ext = Except.ok c → c.text ≠ [] := by
  have hh1 : ext ≠ "html".data := fun e => hext (by rw [e]; simp)
  have hh2 : ext ≠ "htm".data := fun e => hext (by rw [e]; simp)
  have hh3 : ext ≠ "docx".data := fun e => hext (by rw [e]; simp)
  have hh4 : ext ≠ "json".data := fun e => hext (by rw [e]; simp)
  intro c hc
  unfold JS.extract at hc
  split_ifs at hc with h1 h2 h3 h4
  · -- msg
    cases hc
    cases hm : msgO buf with
    | some d =>
      simp [JS.extractMSG, hm, JS.buildTextEmail, JS.buildTextLines, joinSep]
    | none =>
      simp only [JS.extractMSG, hm]
      exact orDefault_ne_nil _ _ (by decide)
  · -- eml
    cases hc
    cases hm : emlO buf with
    | some p =>
      simp [JS.extractEML, hm, JS.buildTextEmail, JS.buildTextLines, joinSep]
    | none =>
      simp only [JS.extractEML, hm]
      exact utf8Decode_ne_nil buf hbuf
  · -- html/htm: excluded by hypothesis
    rcases h3 with he | he
    · exact absurd he hh1
    · exact absurd he hh2
  · -- csv
    cases hc
    simp only [JS.extractCSV]
    exact utf8Decode_ne_nil buf hbuf
  · -- default
    cases hc
    exact utf8Decode_ne_nil buf hbuf

/-- Witness for C2's amended theorem at a concrete input. -/
theorem extract_text_ne_nil_witness :
    (([104] : List Nat) ≠ [])
    ∧ ("txt".data ∉ ["html".data, "htm".data, "docx".data, "json".data])
    ∧ (({ text := "h".data, html := "<pre>h</pre>".data, meta := none } : Content).text ≠ []) :=
  ⟨by decide, by decide,
   extract_text_ne_nil noMsg noEml mamFail jsonNone [104] "txt".data
     (by decide) (by decide) _ rfl⟩

/-- Counterexample to C2 as stated: a non-zero buffer holding only
markup (`<p></p>`, extension html) extracts to an empty `text`. -/
theorem extract_html_empty_text :
    JS.extract noMsg noEml mamFail jsonNone (utf8Encode "<p></p>".data) "html".data
      = Except.ok { text := [], html := "<p></p>".data, meta := none }
    ∧ utf8Encode "<p></p>".data ≠ [] :=
  ⟨rfl, by decide⟩

/-! ## C3: unsupported target format -/

/-- C3 (amended): a format outside pdf/docx/txt/html makes `convert`
throw the unsupported-format error, and the handler answers it with
status 500 (a server-error response, not a 4xx) and no output bytes. -/
theorem convert_unsupported
    (pdfO docxO : Content → Str → Except Str RenderOut)
    (content : Content) (format baseName : Str)
    (h : format ∉ ["pdf".data, "docx".data, "txt".data, "html".data]) :
    JS.convert pdfO docxO content format baseName
      = Except.error ("Format \"".data ++ format ++ "\" tidak didukung".data)
    ∧ JS.handleConvert pdfO docxO content format baseName = (500, none) := by
  have h1 : format ≠ "pdf".data := fun e => h (by rw [e]; simp)
  have h2 : format ≠ "docx".data := fun e => h (by rw [e]; simp)
  have h3 : format ≠ "txt".data := fun e => h (by rw [e]; simp)
  have h4 : format ≠ "html".data := fun e => h (by rw [e]; simp)
  have hc : JS.convert pdfO docxO content format baseName
      = Except.error ("Format \"".data ++ format ++ "\" tidak didukung".data) := by
    unfold JS.convert
    split_ifs
    all_goals
      first
      | rfl
      | exact absurd (by assumption) h1
      | exact absurd (by assumption) h2
      | exact absurd (by assumption) h3
      | exact absurd (by assumption) h4
  refine ⟨hc, ?_⟩
  unfold JS.handleConvert
  rw [hc]

/-- Witness for C3's amended theorem at the spec's example format. -/
theorem convert_unsupported_witness :
    ("foo".data ∉ ["pdf".data, "docx".data, "txt".data, "html".data])
    ∧ (JS.convert pdfStub docxStub sampleContent "foo".data "f".data
        = Except.error ("Format \"".data ++ "foo".data ++ "\" tidak didukung".data)
      ∧ JS.handleConvert pdfStub docxStub sampleContent "foo".data "f".data = (500, none)) :=
  ⟨by decide, convert_unsupported pdfStub docxStub sampleContent "foo".data "f".data (by decide)⟩

/-- Counterexample to C3 as stated: the response status for format
`"foo"` is 500, which is not in the client-error class (4xx). -/
theorem convert_unsupported_status_500 :
    JS.handleConvert pdfStub docxStub sampleContent "foo".data "f".data = (500, none)
    ∧ ¬ (JS.handleConvert pdfStub docxStub sampleContent "foo".data "f".data).1 < 500 :=
  ⟨rfl, by decide⟩

/-! ## Split/join lemmas -/

theorem splitOnChar_ne_nil (sep : Char) (s : Str) : splitOnChar sep s ≠ [] := by
  cases s with
  | nil => simp [splitOnChar]
  | cons c cs =>
    simp only [splitOnChar]
    split
    · simp
    · split <;> simp

theorem splitOnChar_append_cons (sep : Char) (a b : Str) (h : sep ∉ a) :
    splitOnChar sep (a ++ sep :: b) = a :: splitOnChar sep b := by
  induction a with
  | nil => simp [splitOnChar]
  | cons c a' ih =>
    have hc : ¬ c = sep := by
      intro e
      exact h (by rw [e]; exact List.mem_cons_self _ _)
    have h' : sep ∉ a' := fun m => h (List.mem_cons_of_mem _ m)
    simp only [List.cons_append, splitOnChar, if_neg hc, List.append_eq, ih h']

theorem splitOnChar_joinSep (sep : Char) (ls : List Str) (body : Str)
    (h : ∀ l ∈ ls, sep ∉ l) :
    splitOnChar sep (joinSep sep (ls ++ [body])) = ls ++ splitOnChar sep body := by
  induction ls with
  | nil => simp [joinSep]
  | cons x ls' ih =>
    have hx : sep ∉ x := h x (List.mem_cons_self _ _)
    have h' : ∀ l ∈ ls', sep ∉ l := fun l m => h l (List.mem_cons_of_mem _ m)
    cases ls' with
    | nil =>
      simp only [List.nil_append, List.cons_append, joinSep]
      rw [splitOnChar_append_cons sep x body hx]
    | cons y t =>
      have hj : joinSep sep ((x :: y :: t) ++ [body])
          = x ++ sep :: joinSep sep ((y :: t) ++ [body]) := rfl
      rw [hj, splitOnChar_append_cons sep x _ hx, ih h']
      rfl

theorem joinStr_not_mem (c : Char) (sep : Str) (xs : List Str)
    (hsep : c ∉ sep) (h : ∀ x ∈ xs, c ∉ x) : c ∉ joinStr sep xs := by
  induction xs with
  | nil => simp [joinStr]
  | cons x xs' ih =>
    cases xs' with
    | nil => simpa [joinStr] using h x (List.mem_cons_self _ _)
    | cons y t =>
      have hx : c ∉ x := h x (List.mem_cons_self _ _)
      have h' : ∀ z ∈ y :: t, c ∉ z := fun z m => h z (List.mem_cons_of_mem _ m)
      simp only [joinStr, List.mem_append]
      push_neg
      exact ⟨⟨hx, hsep⟩, ih h'⟩

/-! ## C4: canonical email text layout -/

/-- C4: for every metadata record whose header fields hold no newline,
the convert.js canonical text rendering splits into exactly the
`Subject:`/`From:`/`To:` lines, the conditional `CC:`/`Date:`/
`Attachments:` lines, a blank line, the 50-glyph divider line, a blank
line, and then the body's lines. -/
theorem buildTextEmail_layout (e : EmailArgs)
    (hs : '\n' ∉ e.subject) (hf : '\n' ∉ e.fromAddr) (ht : '\n' ∉ e.toAddr)
    (hcc : '\n' ∉ e.cc) (hdt : '\n' ∉ e.date)
    (ha : ∀ a ∈ e.attachments, '\n' ∉ a.name) :
    splitOnChar '\n' (JS.buildTextEmail e)
      = ["Subject: ".data ++ e.subject,
         "From: ".data ++ e.fromAddr,
         "To: ".data ++ e.toAddr]
        ++ (if e.cc ≠ [] then ["CC: ".data ++ e.cc] else [])
        ++ (if e.date ≠ [] then ["Date: ".data ++ e.date] else [])
        ++ (if e.attachments ≠ [] then
              ["Attachments: ".data ++ joinStr ", ".data (e.attachments.map (·.name))]
            else [])
        ++ [[], List.replicate 50 '─', []]
        ++ splitOnChar '\n' e.body := by
  have heq : JS.buildTextLines e
      = (["Subject: ".data ++ e.subject,
          "From: ".data ++ e.fromAddr,
          "To: ".data ++ e.toAddr]
         ++ (if e.cc ≠ [] then ["CC: ".data ++ e.cc] else [])
         ++ (if e.date ≠ [] then ["Date: ".data ++ e.date] else [])
         ++ (if e.attachments ≠ [] then
               ["Attachments: ".data ++ joinStr ", ".data (e.attachments.map (·.name))]
             else [])
         ++ [[], List.replicate 50 '─', []]) ++ [e.body] := by
    simp [JS.buildTextLines]
  have hls : ∀ l ∈ (["Subject: ".data ++ e.subject,
          "From: ".data ++ e.fromAddr,
          "To: ".data ++ e.toAddr]
         ++ (if e.cc ≠ [] then ["CC: ".data ++ e.cc] else [])
         ++ (if e.date ≠ [] then ["Date: ".data ++ e.date] else [])
         ++ (if e.attachments ≠ [] then
               ["Attachments: ".data ++ joinStr ", ".data (e.attachments.map (·.name))]
             else [])
         ++ [[], List.replicate 50 '─', []]), '\n' ∉ l := by
    intro l hl
    simp only [List.append_assoc, List.mem_append, List.mem_cons,
      List.not_mem_nil, or_false] at hl
    rcases hl with (rfl | rfl | rfl) | hl | hl | hl | (rfl | rfl | rfl)
    · intro m
      rcases List.mem_append.mp m with m | m
      · revert m; decide
      · exact hs m
    · intro m
      rcases List.mem_append.mp m with m | m
      · revert m; decide
      · exact hf m
    · intro m
      rcases List.mem_append.mp m with m | m
      · revert m; decide
      · exact ht m
    · -- the CC line
      split at hl
      · simp only [List.mem_singleton] at hl
        subst hl
        intro m
        rcases List.mem_append.mp m with m | m
        · revert m; decide
        · exact hcc m
      · simp at hl
    · -- the Date line
      split at hl
      · simp only [List.mem_singleton] at hl
        subst hl
        intro m
        rcases List.mem_append.mp m with m | m
        · revert m; decide
        · exact hdt m
      · simp at hl
    · -- the Attachments line
      split at hl
      · simp only [List.mem_singleton] at hl
        subst hl
        intro m
        rcases List.mem_append.mp m with m | m
        · revert m; decide
        · refine joinStr_not_mem '\n' ", ".data _ (by decide) ?_ m
          intro x hx
          rcases List.mem_map.mp hx with ⟨a, haa, rfl⟩
          exact ha a haa
      · simp at hl
    · simp
    · decide
    · simp
  unfold JS.buildTextEmail
  rw [heq, splitOnChar_joinSep '\n' _ _ hls]

/-- Witness for C4 at the spec's example metadata: the rendering's
lines are `Subject: Hi`, `From: a@x.com`, `To: b@x.com`, a blank, the
divider, a blank, `Hello`, in that order. -/
theorem buildTextEmail_layout_witness :
    ('\n' ∉ sampleArgs.subject)
    ∧ splitOnChar '\n' (JS.buildTextEmail sampleArgs)
        = ["Subject: Hi".data, "From: a@x.com".data, "To: b@x.com".data,
           [], List.replicate 50 '─', [], "Hello".data] :=
  ⟨by decide,
   (buildTextEmail_layout sampleArgs (by decide) (by decide) (by decide)
     (by decide) (by decide) (by decide)).trans (by decide)⟩

/-! ## C10: the two buildTextEmail variants -/

/-- C10 (amended): the two `buildTextEmail` implementations agree on
the header lines, the blank lines and the body, and differ only in the
divider: 50 box-drawing dashes in convert.js against 60 in
convert.mts. -/
theorem buildTextEmail_variants (e : EmailArgs) :
    JS.buildTextEmail e
      = joinSep '\n' (emailHeaderLines e ++ [[], List.replicate 50 '─', [], e.body])
    ∧ MTS.buildTextEmail e
      = joinSep '\n' (emailHeaderLines e ++ [[], List.replicate 60 '─', [], e.body]) := by
  constructor
  · unfold JS.buildTextEmail
    congr 1
  · unfold MTS.buildTextEmail
    congr 1

/-- Counterexample to C10 as stated: on the spec's example metadata the
two renderings differ (at the divider line). -/
theorem buildTextEmail_variants_differ :
    JS.buildTextEmail sampleArgs ≠ MTS.buildTextEmail sampleArgs := by decide

/-! ## C5: divider-based body recovery -/

theorem findIndex_eq_none_of (p : α → Bool) (l : List α)
    (h : ∀ x ∈ l, p x = false) : findIndex p l = none := by
  induction l with
  | nil => rfl
  | cons a l' ih =>
    have ha : p a = false := h a (List.mem_cons_self _ _)
    simp only [findIndex, ha, Bool.false_eq_true, if_false,
      ih (fun x m => h x (List.mem_cons_of_mem _ m)), Option.map_none']

theorem findIndex_eq_some_of (p : α → Bool) (l : List α) (i : Nat) (x : α)
    (hx : l[i]? = some x) (hpx : p x = true)
    (hbefore : ∀ j y, j < i → l[j]? = some y → p y = false) :
    findIndex p l = some i := by
  induction l generalizing i with
  | nil => simp at hx
  | cons a l' ih =>
    cases i with
    | zero =>
      simp only [List.getElem?_cons_zero, Option.some_inj] at hx
      subst hx
      simp [findIndex, hpx]
    | succ i' =>
      have hpa : p a = false := hbefore 0 a (Nat.succ_pos _) (by simp)
      have hx' : l'[i']? = some x := by simpa using hx
      have hb' : ∀ j y, j < i' → l'[j]? = some y → p y = false := by
        intro j y hj hy
        exact hbefore (j + 1) y (by omega) (by simpa using hy)
      simp [findIndex, hpa, ih i' hx' hb']

/-- C5 (amended): the body recovery of the pdf/docx renderers
(`getBody` in convert.mts and the inline recovery of `generateDOCX` in
convert.js) takes everything after the FIRST line starting with the
divider glyph and trims surrounding whitespace; with no divider line,
the whole text is returned unchanged. -/
theorem getBody_spec (text : Str) :
    (∀ i l, (splitOnChar '\n' text)[i]? = some l → "─".data.isPrefixOf l = true →
      (∀ j l', j < i → (splitOnChar '\n' text)[j]? = some l' →
        "─".data.isPrefixOf l' = false) →
      MTS.getBody text = jsTrim (joinSep '\n' ((splitOnChar '\n' text).drop (i + 1)))
      ∧ JS.docxBodyText text = jsTrim (joinSep '\n' ((splitOnChar '\n' text).drop (i + 1))))
    ∧ ((∀ l ∈ splitOnChar '\n' text, "─".data.isPrefixOf l = false) →
      MTS.getBody text = text ∧ JS.docxBodyText text = text) := by
  constructor
  · intro i l h1 h2 h3
    have hf := findIndex_eq_some_of (fun l => "─".data.isPrefixOf l)
      (splitOnChar '\n' text) i l h1 h2 h3
    constructor
    · show (match findIndex (fun l => "─".data.isPrefixOf l) (splitOnChar '\n' text) with
        | some idx => jsTrim (joinSep '\n' ((splitOnChar '\n' text).drop (idx + 1)))
        | none => text)
        = jsTrim (joinSep '\n' ((splitOnChar '\n' text).drop (i + 1)))
      rw [hf]
    · show (match findIndex (fun l => "─".data.isPrefixOf l) (splitOnChar '\n' text) with
        | some idx => jsTrim (joinSep '\n' ((splitOnChar '\n' text).drop (idx + 1)))
        | none => text)
        = jsTrim (joinSep '\n' ((splitOnChar '\n' text).drop (i + 1)))
      rw [hf]
  · intro h
    have hf := findIndex_eq_none_of (fun l => "─".data.isPrefixOf l)
      (splitOnChar '\n' text) h
    constructor
    · show (match findIndex (fun l => "─".data.isPrefixOf l) (splitOnChar '\n' text) with
        | some idx => jsTrim (joinSep '\n' ((splitOnChar '\n' text).drop (idx + 1)))
        | none => text)
        = text
      rw [hf]
    · show (match findIndex (fun l => "─".data.isPrefixOf l) (splitOnChar '\n' text) with
        | some idx => jsTrim (joinSep '\n' ((splitOnChar '\n' text).drop (idx + 1)))
        | none => text)
        = text
      rw [hf]

/-- Witness for C5's amended theorem: with two divider lines the first
one is the boundary. -/
theorem getBody_spec_witness :
    MTS.getBody "a\n─x\nb\n─y\nc".data = "b\n─y\nc".data
    ∧ JS.docxBodyText "a\n─x\nb\n─y\nc".data = "b\n─y\nc".data := by
  have h := (getBody_spec "a\n─x\nb\n─y\nc".data).1 1 "─x".data (by decide) (by decide) ?hb
  · exact ⟨h.1.trans (by decide), h.2.trans (by decide)⟩
  case hb =>
    intro j l' hj hl
    have hj0 : j = 0 := by omega
    subst hj0
    rw [show (splitOnChar '\n' "a\n─x\nb\n─y\nc".data)[0]? = some "a".data from by decide] at hl
    cases hl
    decide

/-- Counterexample to C5 as stated: the recovered body is trimmed, not
"everything after the divider line" — on `"─\n x"` the code returns
`"x"`, not `" x"`. -/
theorem getBody_trims :
    MTS.getBody "─\n x".data = "x".data
    ∧ JS.docxBodyText "─\n x".data = "x".data
    ∧ "x".data ≠ " x".data := by decide

/-! ## C7: msg salvage byte-scan -/

theorem scanAux_eq (l : List Nat) :
    ∀ longest cur, JS.scanAux l longest cur = List.foldl best longest (JS.runsFrom cur l) := by
  induction l with
  | nil =>
    intro longest cur
    simp [JS.scanAux, JS.runsFrom, best]
  | cons b rest ih =>
    intro longest cur
    by_cases hb : JS.printable b
    · simp [JS.scanAux, JS.runsFrom, hb, ih]
    · simp only [JS.scanAux, JS.runsFrom, hb, Bool.false_eq_true, if_false, List.foldl_cons]
      rw [ih]
      congr 1

theorem length_le_foldl_best (rs : List Str) :
    ∀ init : Str, init.length ≤ (List.foldl best init rs).length := by
  induction rs with
  | nil => intro init; simp
  | cons r rs ih =>
    intro init
    have h1 : init.length ≤ (best init r).length := by
      unfold best; split <;> omega
    exact le_trans h1 (ih (best init r))

theorem foldl_best_le (rs : List Str) :
    ∀ init : Str, ∀ r ∈ rs, r.length ≤ (List.foldl best init rs).length := by
  induction rs with
  | nil => intro init r hr; simp at hr
  | cons x rs ih =>
    intro init r hr
    rcases List.mem_cons.mp hr with rfl | hr
    · have h1 : r.length ≤ (best init r).length := by
        unfold best; split <;> omega
      exact le_trans h1 (length_le_foldl_best rs (best init r))
    · exact ih (best init x) r hr

theorem foldl_best_mem (rs : List Str) :
    ∀ init : Str, List.foldl best init rs = init ∨ List.foldl best init rs ∈ rs := by
  induction rs with
  | nil => intro init; left; rfl
  | cons x rs ih =>
    intro init
    rcases ih (best init x) with h | h
    · rw [List.foldl_cons, h]
      unfold best
      split
      · right; exact List.mem_cons_self _ _
      · left; rfl
    · right
      exact List.mem_cons_of_mem _ h

theorem printChunksAux_eq_filter (l : List Nat) :
    ∀ cur, JS.printChunksAux cur l = (JS.runsFrom cur l).filter (fun x => !x.isEmpty) := by
  induction l with
  | nil =>
    intro cur
    simp only [JS.printChunksAux, JS.runsFrom, List.filter]
    cases cur <;> simp
  | cons b rest ih =>
    intro cur
    by_cases hb : JS.printable b
    · simp [JS.printChunksAux, JS.runsFrom, hb, ih]
    · simp only [JS.printChunksAux, JS.runsFrom, hb, Bool.false_eq_true, if_false, List.filter]
      cases hcur : cur with
      | nil => simp [ih]
      | cons c cs => simp [ih]

/-- C7: when the structured msg reader fails, the extracted text is the
(first) longest maximal printable-ASCII run of the buffer — it is a
member of the run list and no run is longer — and the non-empty
placeholder is used when no printable run exists, so the result is
never empty. -/
theorem msg_salvage_spec (buf : List Nat) :
    (JS.extractMSG none buf).text ≠ []
    ∧ (JS.printChunks buf = [] → (JS.extractMSG none buf).text = JS.msgPlaceholder)
    ∧ (JS.printChunks buf ≠ [] →
        (JS.extractMSG none buf).text ∈ JS.printChunks buf
        ∧ ∀ r ∈ JS.printChunks buf, r.length ≤ (JS.extractMSG none buf).text.length) := by
  have htext : (JS.extractMSG none buf).text
      = orDefault (List.foldl best [] (JS.runsFrom [] buf)) JS.msgPlaceholder := by
    simp [JS.extractMSG, JS.longestPrintableRun, scanAux_eq]
  have hchunks : JS.printChunks buf = (JS.runsFrom [] buf).filter (fun x => !x.isEmpty) := by
    simp [JS.printChunks, printChunksAux_eq_filter]
  set longest := List.foldl best [] (JS.runsFrom [] buf) with hlong
  by_cases hc : JS.printChunks buf = []
  · -- no printable run: every run is empty, the fold yields [] and the
    -- placeholder is used
    have hall : ∀ x ∈ JS.runsFrom [] buf, ¬ (!x.isEmpty) = true := by
      rw [hchunks] at hc
      exact List.filter_eq_nil.mp hc
    have hnil : longest = [] := by
      rcases foldl_best_mem (JS.runsFrom [] buf) [] with h | h
      · exact h
      · have := hall _ h
        simp only [Bool.not_eq_true', List.isEmpty_iff] at this
        simpa using this
    refine ⟨?_, fun _ => ?_, fun hne => absurd hc hne⟩
    · rw [htext, hnil]
      decide
    · rw [htext, hnil]
      rfl
  · -- some printable run exists: the fold result is a non-empty run of
    -- maximal length
    obtain ⟨k, hk⟩ := List.exists_mem_of_ne_nil _ hc
    have hkruns : k ∈ JS.runsFrom [] buf := by
      rw [hchunks] at hk
      exact (List.mem_filter.mp hk).1
    have hkne : k ≠ [] := by
      rw [hchunks] at hk
      have := (List.mem_filter.mp hk).2
      simpa using this
    have hkpos : 1 ≤ k.length := by
      cases k with
      | nil => exact absurd rfl hkne
      | cons a b => simp
    have hlen : 1 ≤ longest.length :=
      le_trans hkpos (foldl_best_le (JS.runsFrom [] buf) [] k hkruns)
    have hne : longest ≠ [] := by
      intro h
      rw [h] at hlen
      simp at hlen
    have hmem : longest ∈ JS.runsFrom [] buf := by
      rcases foldl_best_mem (JS.runsFrom [] buf) [] with h | h
      · exact absurd h hne
      · exact h
    have htext' : (JS.extractMSG none buf).text = longest := by
      rw [htext]
      unfold orDefault
      rw [if_neg hne]
    refine ⟨by rw [htext']; exact hne, fun h => absurd h hc, fun _ => ?_⟩
    constructor
    · rw [htext', hchunks]
      refine List.mem_filter.mpr ⟨hmem, ?_⟩
      simpa using hne
    · intro r hr
      rw [htext']
      have hrruns : r ∈ JS.runsFrom [] buf := by
        rw [hchunks] at hr
        exact (List.mem_filter.mp hr).1
      exact foldl_best_le (JS.runsFrom [] buf) [] r hrruns

/-- Witness for C7 at a concrete buffer with two printable runs. -/
theorem msg_salvage_spec_witness :
    (JS.printChunks [65, 66, 0, 67] ≠ [])
    ∧ ((JS.extractMSG none [65, 66, 0, 67]).text ∈ JS.printChunks [65, 66, 0, 67]
      ∧ ∀ r ∈ JS.printChunks [65, 66, 0, 67],
          r.length ≤ (JS.extractMSG none [65, 66, 0, 67]).text.length) :=
  ⟨by decide, (msg_salvage_spec [65, 66, 0, 67]).2.2 (by decide)⟩

/-! ## C9: csv extraction -/

theorem csvCellHtml_zero (cell : Str) : JS.csvCellHtml 0 cell = thCellSpec cell := by
  unfold JS.csvCellHtml thCellSpec
  simp

theorem csvCellHtml_pos (i : Nat) (cell : Str) (hi : i ≠ 0) :
    JS.csvCellHtml i cell = tdCellSpec cell := by
  unfold JS.csvCellHtml tdCellSpec
  rw [if_neg hi, if_neg hi]
  simp

theorem csvRowsHtml_pos (rows : List (List Str)) :
    ∀ i, i ≠ 0 → JS.csvRowsHtml i rows
      = (rows.map (fun row => "<tr>".data ++ (row.map tdCellSpec).flatten ++ "</tr>".data)).flatten := by
  induction rows with
  | nil => intro i _; rfl
  | cons row rest ih =>
    intro i hi
    simp only [JS.csvRowsHtml, List.map_cons, List.flatten_cons]
    rw [ih (i + 1) (by omega)]
    have hmap : row.map (JS.csvCellHtml i) = row.map tdCellSpec :=
      List.map_congr_left (fun cell _ => csvCellHtml_pos i cell hi)
    rw [hmap]

theorem csvRowsHtml_spec (rows : List (List Str)) :
    JS.csvRowsHtml 0 rows = csvTableSpec rows := by
  cases rows with
  | nil => rfl
  | cons first rest =>
    simp only [JS.csvRowsHtml, csvTableSpec]
    rw [csvRowsHtml_pos rest 1 (by omega)]
    have hmap : first.map (JS.csvCellHtml 0) = first.map thCellSpec :=
      List.map_congr_left (fun cell _ => csvCellHtml_zero cell)
    rw [hmap]

set_option maxRecDepth 4000 in
/-- C9: `extractCSV` keeps the raw input as the text view and renders
the table by splitting the trimmed input on newlines and each row on
commas (no quoted-field handling — a quoted field containing a comma is
split through, as the last conjunct shows), with row 0 as `<th>` header
cells and all later rows as `<td>` cells; on the spec's example input
the table has exactly one row of 3 `<th>` cells and one row of 3
`<td>` cells. -/
theorem extractCSV_spec :
    (∀ str : Str, (JS.extractCSV str).text = str
      ∧ (JS.extractCSV str).html
          = JS.csvTableOpen
            ++ csvTableSpec ((splitOnChar '\n' (jsTrim str)).map (splitOnChar ','))
            ++ "</table>".data)
    ∧ ((splitOnChar '\n' (jsTrim "a,b,c\n1,2,3".data)).map (splitOnChar ',')
        = [["a".data, "b".data, "c".data], ["1".data, "2".data, "3".data]])
    ∧ countSub "<th".data (JS.extractCSV "a,b,c\n1,2,3".data).html = 3
    ∧ countSub "<td".data (JS.extractCSV "a,b,c\n1,2,3".data).html = 3
    ∧ countSub "<tr>".data (JS.extractCSV "a,b,c\n1,2,3".data).html = 2
    ∧ (splitOnChar ',' "a,\"b,c\"".data).length = 3 := by
  refine ⟨?_, by decide, by decide, by decide, by decide, by decide⟩
  intro str
  refine ⟨rfl, ?_⟩
  show JS.csvTableOpen
      ++ JS.csvRowsHtml 0 ((splitOnChar '\n' (jsTrim str)).map (splitOnChar ','))
      ++ "</table>".data
    = _
  rw [csvRowsHtml_spec]

/-! ## C6: first-non-empty-wins merge of the hardened msg extractor -/

theorem ite_isEmpty_self (s : Str) : (if s.isEmpty then ([] : Str) else s) = s := by
  split <;> simp_all [List.isEmpty_iff]

theorem step_field_subject (f : MTS.MsgFields) (e : MTS.CFBEntry) :
    (MTS.step f e).subject
      = if MTS.eligible e && selSubject e && f.subject.isEmpty
        then MTS.msgStr e.content e.name else f.subject := by
  unfold MTS.step selSubject
  by_cases he : MTS.eligible e
  · simp only [he, if_true, Bool.true_and]
    simp only [apply_ite MTS.MsgFields.subject, ite_self]
  · simp [he]

theorem step_field_fromAddr (f : MTS.MsgFields) (e : MTS.CFBEntry) :
    (MTS.step f e).fromAddr
      = if MTS.eligible e && selFrom e && f.fromAddr.isEmpty
        then MTS.msgStr e.content e.name else f.fromAddr := by
  unfold MTS.step selFrom
  by_cases he : MTS.eligible e
  · simp only [he, if_true, Bool.true_and]
    simp only [apply_ite MTS.MsgFields.fromAddr, ite_self]
  · simp [he]

theorem step_field_senderEmail (f : MTS.MsgFields) (e : MTS.CFBEntry) :
    (MTS.step f e).senderEmail
      = if MTS.eligible e && selSenderEmail e && f.senderEmail.isEmpty
        then MTS.msgStr e.content e.name else f.senderEmail := by
  unfold MTS.step selSenderEmail
  by_cases he : MTS.eligible e
  · simp only [he, if_true, Bool.true_and]
    simp only [apply_ite MTS.MsgFields.senderEmail, ite_self]
  · simp [he]

theorem step_field_toAddr (f : MTS.MsgFields) (e : MTS.CFBEntry) :
    (MTS.step f e).toAddr
      = if MTS.eligible e && selTo e && f.toAddr.isEmpty
        then MTS.msgStr e.content e.name else f.toAddr := by
  unfold MTS.step selTo
  by_cases he : MTS.eligible e
  · simp only [he, if_true, Bool.true_and]
    simp only [apply_ite MTS.MsgFields.toAddr, ite_self]
  · simp [he]

theorem step_field_cc (f : MTS.MsgFields) (e : MTS.CFBEntry) :
    (MTS.step f e).cc
      = if MTS.eligible e && selCc e && f.cc.isEmpty
        then MTS.msgStr e.content e.name else f.cc := by
  unfold MTS.step selCc
  by_cases he : MTS.eligible e
  · simp only [he, if_true, Bool.true_and]
    simp only [apply_ite MTS.MsgFields.cc, ite_self]
  · simp [he]

theorem step_field_body (f : MTS.MsgFields) (e : MTS.CFBEntry) :
    (MTS.step f e).body
      = if MTS.eligible e && selBody e && f.body.isEmpty
        then MTS.msgStr e.content e.name else f.body := by
  unfold MTS.step selBody
  by_cases he : MTS.eligible e
  · simp only [he, if_true, Bool.true_and]
    simp only [apply_ite MTS.MsgFields.body, ite_self]
  · simp [he]

theorem step_field_bodyHtml (f : MTS.MsgFields) (e : MTS.CFBEntry) :
    (MTS.step f e).bodyHtml
      = if MTS.eligible e && selBodyHtml e && f.bodyHtml.isEmpty
        then MTS.msgStr e.content e.name else f.bodyHtml := by
  unfold MTS.step selBodyHtml
  by_cases he : MTS.eligible e
  · simp only [he, if_true, Bool.true_and]
    simp only [apply_ite MTS.MsgFields.bodyHtml, ite_self]
  · simp [he]

/-- If one iteration of the CFB loop fills a field exactly when the
entry is eligible, matches the field's tag and the field is still
empty, then the whole loop computes: keep a non-empty starting value,
otherwise take the first non-empty decoded hit. -/
theorem merge_field_generic
    (get : MTS.MsgFields → Str) (sel : MTS.CFBEntry → Bool)
    (hstep : ∀ f e, get (MTS.step f e)
      = if MTS.eligible e && sel e && (get f).isEmpty
        then MTS.msgStr e.content e.name else get f) :
    ∀ (es : List MTS.CFBEntry) (f : MTS.MsgFields),
      get (MTS.mergeCFB f es) = if (get f).isEmpty then tagHit sel es else get f := by
  intro es
  induction es with
  | nil =>
    intro f
    show get f = if (get f).isEmpty then tagHit sel [] else get f
    rw [show tagHit sel [] = [] from rfl, ite_isEmpty_self]
  | cons e es ih =>
    intro f
    rw [show MTS.mergeCFB f (e :: es) = MTS.mergeCFB (MTS.step f e) es from rfl,
      ih (MTS.step f e), hstep f e]
    by_cases hE : (get f).isEmpty
    · have hfnil : get f = [] := List.isEmpty_iff.mp hE
      by_cases hA : (MTS.eligible e && sel e) = true
      · by_cases hV : (MTS.msgStr e.content e.name).isEmpty
        · have hVnil : MTS.msgStr e.content e.name = [] := List.isEmpty_iff.mp hV
          simp [tagHit, hA, hE, hV, hfnil, hVnil]
        · simp [tagHit, hA, hE, hV, hfnil]
      · have hA' : (MTS.eligible e && sel e) = false := by
          revert hA
          cases MTS.eligible e && sel e <;> simp
        simp [tagHit, hA', hE, hfnil]
    · have hE' : (get f).isEmpty = false := by
        revert hE
        cases (get f).isEmpty <;> simp
      simp [tagHit, hE']

set_option maxHeartbeats 1000000 in
/-- C6 (amended): in the hardened msg extractor each of the seven
fields keeps the structured reader's non-empty value — the CFB walk
fills a field only when it is still empty, taking the first non-empty
decoded hit for its property tag — and the final clean-up scrubs the
winning subject, from, sender email, to, cc and body values, while the
winning HTML body is used UNSCRUBBED (it is only discarded when it
starts with an RTF marker). -/
theorem msg_merge_spec :
    (∀ (f : MTS.MsgFields) (es : List MTS.CFBEntry),
      ((MTS.mergeCFB f es).subject
        = if f.subject.isEmpty then tagHit selSubject es else f.subject)
      ∧ ((MTS.mergeCFB f es).fromAddr
        = if f.fromAddr.isEmpty then tagHit selFrom es else f.fromAddr)
      ∧ ((MTS.mergeCFB f es).senderEmail
        = if f.senderEmail.isEmpty then tagHit selSenderEmail es else f.senderEmail)
      ∧ ((MTS.mergeCFB f es).toAddr
        = if f.toAddr.isEmpty then tagHit selTo es else f.toAddr)
      ∧ ((MTS.mergeCFB f es).cc
        = if f.cc.isEmpty then tagHit selCc es else f.cc)
      ∧ ((MTS.mergeCFB f es).body
        = if f.body.isEmpty then tagHit selBody es else f.body)
      ∧ ((MTS.mergeCFB f es).bodyHtml
        = if f.bodyHtml.isEmpty then tagHit selBodyHtml es else f.bodyHtml))
    ∧ (∀ g : MTS.MsgFields, ∃ m : EmailMeta,
      (MTS.assemble g).meta = some m
      ∧ m.subject = orDefault (scrub g.subject) "(Tanpa Subjek)".data
      ∧ m.toAddr = orDefault (scrub g.toAddr) "(Tidak diketahui)".data
      ∧ m.cc = scrub g.cc
      ∧ m.date = scrub g.date
      ∧ m.fromAddr
          = (if g.senderEmail ≠ [] && orDefault (scrub g.fromAddr) "(Tidak diketahui)".data ≠ []
                && !hasSub g.senderEmail (orDefault (scrub g.fromAddr) "(Tidak diketahui)".data)
             then orDefault (scrub g.fromAddr) "(Tidak diketahui)".data
                  ++ " <".data ++ scrub g.senderEmail ++ ">".data
             else orDefault (scrub g.fromAddr) "(Tidak diketahui)".data)
      ∧ m.attachments
          = (g.attachmentNames.map (fun n => Attachment.mk (scrub n) 0)).filter
              (fun a => a.name ≠ [])
      ∧ (MTS.assemble g).text
          = MTS.buildTextEmail
              { subject := m.subject, fromAddr := m.fromAddr, toAddr := m.toAddr,
                cc := m.cc, date := m.date, body := scrub g.body,
                attachments := m.attachments }
      ∧ (MTS.assemble g).html
          = MTS.buildHtmlEmail
              { subject := m.subject, fromAddr := m.fromAddr, toAddr := m.toAddr,
                cc := m.cc, date := m.date,
                body :=
                  (if (if g.bodyHtml ≠ []
                        && "\x7b\\rtf".data.isPrefixOf g.bodyHtml then [] else g.bodyHtml) ≠ []
                   then (if g.bodyHtml ≠ []
                        && "\x7b\\rtf".data.isPrefixOf g.bodyHtml then [] else g.bodyHtml)
                   else MTS.defaultBodyDiv (scrub g.body)),
                attachments := m.attachments }) := by
  constructor
  · intro f es
    exact ⟨merge_field_generic (·.subject) selSubject step_field_subject es f,
           merge_field_generic (·.fromAddr) selFrom step_field_fromAddr es f,
           merge_field_generic (·.senderEmail) selSenderEmail step_field_senderEmail es f,
           merge_field_generic (·.toAddr) selTo step_field_toAddr es f,
           merge_field_generic (·.cc) selCc step_field_cc es f,
           merge_field_generic (·.body) selBody step_field_body es f,
           merge_field_generic (·.bodyHtml) selBodyHtml step_field_bodyHtml es f⟩
  · intro g
    exact ⟨_, rfl, rfl, rfl, rfl, rfl, rfl, rfl, rfl, rfl⟩

/-- Counterexample to C6 as stated: a control character (BEL) in the
structured reader's winning `bodyHtml` survives into the extractor's
HTML output, though `scrub` would remove it — the html body is not
passed through the scrub step. -/
theorem msg_bodyHtml_not_scrubbed :
    '\x07' ∈ (MTS.extractMSG (some bellMsgData) (some [])).html
    ∧ '\x07' ∉ scrub bellMsgData.bodyHtml := by decide

/-! ## C8: plain-text round trip -/

theorem utf8Step_snd_len (b0 : Nat) (r : List Nat) : (utf8Step b0 r).2.length ≤ r.length := by
  unfold utf8Step
  repeat' split
  all_goals simp
  all_goals (try (split <;> simp))
  all_goals omega

theorem utf8DecodeF_irrel : ∀ (f1 f2 : Nat) (l : List Nat),
    l.length ≤ f1 → l.length ≤ f2 → utf8DecodeF f1 l = utf8DecodeF f2 l := by
  intro f1
  induction f1 with
  | zero =>
    intro f2 l h1 _
    have hl : l = [] := by
      cases l with
      | nil => rfl
      | cons a b => simp at h1
    subst hl
    cases f2 <;> rfl
  | succ f ih =>
    intro f2 l h1 h2
    cases l with
    | nil => cases f2 <;> rfl
    | cons b r =>
      cases f2 with
      | zero => simp at h2
      | succ f2' =>
        show (utf8Step b r).1 ++ utf8DecodeF f (utf8Step b r).2
            = (utf8Step b r).1 ++ utf8DecodeF f2' (utf8Step b r).2
        congr 1
        have hlen := utf8Step_snd_len b r
        simp only [List.length_cons] at h1 h2
        exact ih f2' _ (by omega) (by omega)

/-- The decoder undoes one encoded scalar: the encoding of `c` is some
`b0 :: t`, and one decoding step on `b0` with `t ++ bs` ahead yields
exactly `c` and leaves `bs`. -/
theorem utf8_enc_step (c : Char) (bs : List Nat) :
    ∃ b0 t, utf8EncodeChar c = b0 :: t ∧ utf8Step b0 (t ++ bs) = ([c], bs) := by
  have hv : c.toNat < 0xD800 ∨ (0xDFFF < c.toNat ∧ c.toNat < 0x110000) := c.valid
  by_cases h1 : c.toNat < 0x80
  · refine ⟨c.toNat, [], ?_, ?_⟩
    · unfold utf8EncodeChar
      rw [if_pos h1]
    · unfold utf8Step
      rw [if_pos h1, Char.ofNat_toNat]
      rfl
  · by_cases h2 : c.toNat < 0x800
    · refine ⟨0xC0 + c.toNat / 64, [0x80 + c.toNat % 64], ?_, ?_⟩
      · unfold utf8EncodeChar
        rw [if_neg h1, if_pos h2]
      · simp only [utf8Step, List.cons_append, List.nil_append]
        rw [if_neg (by omega), if_pos (by simp; omega), if_pos (by simp [isCont]; omega)]
        have harith : (0xC0 + c.toNat / 64 - 0xC0) * 64 + (0x80 + c.toNat % 64 - 0x80)
            = c.toNat := by omega
        rw [harith, Char.ofNat_toNat]
    · by_cases h3 : c.toNat < 0x10000
      · refine ⟨0xE0 + c.toNat / 4096,
          [0x80 + (c.toNat / 64) % 64, 0x80 + c.toNat % 64], ?_, ?_⟩
        · unfold utf8EncodeChar
          rw [if_neg h1, if_neg h2, if_pos h3]
        · simp only [utf8Step, List.cons_append, List.nil_append]
          rw [if_neg (by omega), if_neg (by simp; omega), if_pos (by simp; omega),
            if_pos (by simp [isCont]; omega)]
          have harith : (0xE0 + c.toNat / 4096 - 0xE0) * 4096
              + (0x80 + (c.toNat / 64) % 64 - 0x80) * 64 + (0x80 + c.toNat % 64 - 0x80)
              = c.toNat := by omega
          rw [harith, Char.ofNat_toNat]
      · refine ⟨0xF0 + c.toNat / 262144,
          [0x80 + (c.toNat / 4096) % 64, 0x80 + (c.toNat / 64) % 64, 0x80 + c.toNat % 64],
          ?_, ?_⟩
        · unfold utf8EncodeChar
          rw [if_neg h1, if_neg h2, if_neg h3]
        · simp only [utf8Step, List.cons_append, List.nil_append]
          rw [if_neg (by omega), if_neg (by simp; omega), if_neg (by simp; omega),
            if_pos (by simp; omega), if_pos (by simp [isCont]; omega)]
          have harith : (0xF0 + c.toNat / 262144 - 0xF0) * 262144
              + (0x80 + (c.toNat / 4096) % 64 - 0x80) * 4096
              + (0x80 + (c.toNat / 64) % 64 - 0x80) * 64 + (0x80 + c.toNat % 64 - 0x80)
              = c.toNat := by omega
          rw [harith, Char.ofNat_toNat]

/-- Decoding inverts encoding on every string. -/
theorem utf8Decode_encode (s : Str) : utf8Decode (utf8Encode s) = s := by
  induction s with
  | nil => rfl
  | cons c cs ih =>
    obtain ⟨b0, t, henc, hstep⟩ := utf8_enc_step c (utf8Encode cs)
    have hE : utf8Encode (c :: cs) = b0 :: (t ++ utf8Encode cs) := by
      show utf8EncodeChar c ++ utf8Encode cs = b0 :: (t ++ utf8Encode cs)
      rw [henc]
      rfl
    unfold utf8Decode
    rw [hE]
    simp only [List.length_cons]
    show (utf8Step b0 (t ++ utf8Encode cs)).1
        ++ utf8DecodeF (t ++ utf8Encode cs).length (utf8Step b0 (t ++ utf8Encode cs)).2
      = c :: cs
    rw [hstep]
    have hlen : (utf8Encode cs).length ≤ (t ++ utf8Encode cs).length := by simp
    rw [utf8DecodeF_irrel _ (utf8Encode cs).length _ hlen (le_refl _)]
    show c :: utf8Decode (utf8Encode cs) = c :: cs
    rw [ih]

/-- C8: a valid-UTF-8 buffer (the encoding of a string `s`) with an
extension outside the specially handled set extracts through the
default path to `text = s`, and the txt renderer re-encodes it to
exactly the original bytes — converting to plain text is the identity
on such buffers. -/
theorem txt_roundtrip
    (msgO : List Nat → Option MsgData) (emlO : List Nat → Option EmlData)
    (mamO : List Nat → Except Str (Str × Str)) (jsonO : Str → Option Str)
    (s : Str) (ext baseName : Str)
    (hext : ext ∉ ["msg".data, "eml".data, "docx".data, "html".data,
      "htm".data, "csv".data, "json".data]) :
    ∃ c, JS.extract msgO emlO mamO jsonO (utf8Encode s) ext = Except.ok c
      ∧ c.text = s
      ∧ (JS.generateTXT c baseName).bytes = utf8Encode s := by
  have g1 : ext ≠ "msg".data := fun e => hext (by rw [e]; simp)
  have g2 : ext ≠ "eml".data := fun e => hext (by rw [e]; simp)
  have g3 : ext ≠ "docx".data := fun e => hext (by rw [e]; simp)
  have g4 : ext ≠ "html".data := fun e => hext (by rw [e]; simp)
  have g5 : ext ≠ "htm".data := fun e => hext (by rw [e]; simp)
  have g6 : ext ≠ "csv".data := fun e => hext (by rw [e]; simp)
  have g7 : ext ≠ "json".data := fun e => hext (by rw [e]; simp)
  have hex : JS.extract msgO emlO mamO jsonO (utf8Encode s) ext
      = Except.ok { text := utf8Decode (utf8Encode s),
                    html := "<pre>".data ++ esc (utf8Decode (utf8Encode s)) ++ "</pre>".data,
                    meta := none } := by
    unfold JS.extract
    rw [if_neg g1, if_neg g2, if_neg g3, if_neg (by simp [g4, g5]), if_neg g6, if_neg g7]
  refine ⟨_, hex, ?_, ?_⟩
  · exact utf8Decode_encode s
  · show utf8Encode (utf8Decode (utf8Encode s)) = utf8Encode s
    rw [utf8Decode_encode]

/-- Witness for C8 at a concrete markdown-named input. -/
theorem txt_roundtrip_witness :
    ("md".data ∉ ["msg".data, "eml".data, "docx".data, "html".data,
      "htm".data, "csv".data, "json".data])
    ∧ ∃ c, JS.extract noMsg noEml mamFail jsonNone (utf8Encode "hello\nworld".data) "md".data
          = Except.ok c
        ∧ c.text = "hello\nworld".data
        ∧ (JS.generateTXT c "f".data).bytes = utf8Encode "hello\nworld".data :=
  ⟨by decide,
   txt_roundtrip noMsg noEml mamFail jsonNone "hello\nworld".data "md".data "f".data (by decide)⟩

end FileShift
